import Mathlib

/-!
# Glk meta-engine: detection, dispatch and save-slot handling

A shallow embedding of `engines/glk/detection.cpp`.  The sub-engines, the
configuration manager, the file system and the Quetzal reader are external
collaborators of that file; they appear here as fields of environment records.
-/

namespace GlkDetection

/-! ## C library pieces used by the save-slot code -/

/-- Decimal digit character for a value below ten. -/
def digitChar : Nat → Char
  | 0 => '0'
  | 1 => '1'
  | 2 => '2'
  | 3 => '3'
  | 4 => '4'
  | 5 => '5'
  | 6 => '6'
  | 7 => '7'
  | 8 => '8'
  | _ => '9'

/-- Decimal digits of `n`, most significant first; `fuel` bounds the number of digits. -/
def decimalAux : Nat → Nat → List Char
  | 0, _ => []
  | fuel + 1, n =>
    if n < 10 then [digitChar n] else decimalAux fuel (n / 10) ++ [digitChar (n % 10)]

/-- Decimal digits of `n` as printed by `%d`. -/
def decimal (n : Nat) : List Char := decimalAux (n + 1) n

/-- Left zero padding up to `width` characters. -/
def padZeros (width : Nat) (ds : List Char) : List Char :=
  List.replicate (width - ds.length) '0' ++ ds

/-- The conversion `%03d` of printf: minimum field width three, padded with zeros,
the sign counted in the width and written before the padding. -/
def format03d (v : Int) : List Char :=
  if v < 0 then '-' :: padZeros 2 (decimal v.natAbs) else padZeros 3 (decimal v.toNat)

/-- C `isspace` in the "C" locale: space, and the controls 9 to 13. -/
def isSpace (c : Char) : Bool := c.toNat == 32 || (9 ≤ c.toNat && c.toNat ≤ 13)

/-- C `isdigit`. -/
def isDigit (c : Char) : Bool := 48 ≤ c.toNat && c.toNat ≤ 57

/-- Digit accumulation loop of `atoi`: stops at the first non-digit. -/
def atoiLoop (acc : Nat) : List Char → Nat
  | [] => acc
  | c :: cs => if isDigit c then atoiLoop (acc * 10 + (c.toNat - 48)) cs else acc

/-- The part of `atoi` after the leading white space: optional sign, then digits. -/
def atoiSigned : List Char → Int
  | [] => 0
  | c :: cs =>
    if c = '-' then -((atoiLoop 0 cs : Nat) : Int)
    else if c = '+' then ((atoiLoop 0 cs : Nat) : Int)
    else ((atoiLoop 0 (c :: cs) : Nat) : Int)

/-- C `atoi`: skips white space, reads an optional sign and the longest run of digits.
The value is the mathematical one (C leaves a value outside `int` undefined). -/
def atoi : List Char → Int
  | [] => 0
  | c :: cs => if isSpace c then atoi cs else atoiSigned (c :: cs)

/-- C `strrchr`: the suffix of `s` that starts at the last occurrence of `c`. -/
def strrchr (s : List Char) (c : Char) : Option (List Char) :=
  match s with
  | [] => none
  | x :: xs =>
    match strrchr xs c with
    | some r => some r
    | none => if x = c then some (x :: xs) else none

/-! ## Save states -/

/-- Save state descriptor of the host: slot, description and the metadata the
Quetzal reader can fill in. -/
structure SaveStateDescriptor where
  slot : Int
  description : String
  saveDate : Nat
  saveTime : Nat
  playTime : Nat
  deriving DecidableEq, Repr

/-- The default constructor `SaveStateDescriptor()` of the host: slot -1, empty
description, no metadata. -/
def SaveStateDescriptor.default : SaveStateDescriptor :=
  { slot := -1, description := "", saveDate := 0, saveTime := 0, playTime := 0 }

/-- The constructor `SaveStateDescriptor(slot, desc)`. -/
def SaveStateDescriptor.ofSlot (slot : Int) (desc : String) : SaveStateDescriptor :=
  { slot := slot, description := desc, saveDate := 0, saveTime := 0, playTime := 0 }

/-- The member `setSaveSlot`. -/
def SaveStateDescriptor.setSaveSlot (d : SaveStateDescriptor) (slot : Int) :
    SaveStateDescriptor :=
  { d with slot := slot }

/-- An opened save file: its bytes. -/
abbrev InSaveFile := List Nat

/-- Everything the save-slot code reaches through `g_system` and the Quetzal reader. -/
structure SaveEnv where
  /-- The constant MAX_SAVES. -/
  MAX_SAVES : Nat
  /-- The call `listSavefiles(pattern)` of the save file manager. -/
  listSavefiles : String → List String
  /-- The call `openForLoading(name)`; `none` is the null pointer. -/
  openForLoading : String → Option InSaveFile
  /-- The call `QuetzalReader::getSavegameDescription(in, saveName)`: success flag and
  the value left in `saveName`. -/
  getSavegameDescription : InSaveFile → Bool × String
  /-- The call `QuetzalReader::getSavegameMetaInfo(in, ssd)`: success flag and the value
  left in `ssd`. -/
  getSavegameMetaInfo : InSaveFile → SaveStateDescriptor → Bool × SaveStateDescriptor

/-- The call `Common::String::format("%s.%03d", target, slot)`. -/
def formatSaveName (target : String) (slot : Int) : String :=
  String.mk (target.data ++ '.' :: format03d slot)

/-- The call `Common::String::format("%s.0##", target)`. -/
def savePattern (target : String) : String :=
  String.mk (target.data ++ ['.', '0', '#', '#'])

/-- The slot `listSaves` reads from a file name: `atoi` of the text after the last dot,
or -1 when the name holds no dot. -/
def parseSlot (file : String) : Int :=
  match strrchr file.data '.' with
  | some ext => atoi ext.tail
  | none => -1

/-- The range test `slot >= 0 && slot <= MAX_SAVES` of `listSaves`. -/
def slotInRange (env : SaveEnv) (slot : Int) : Bool :=
  decide (0 ≤ slot) && decide (slot ≤ (env.MAX_SAVES : Int))

/-- One iteration of the loop of `listSaves`: the list after handling `file`. -/
def listSavesStep (env : SaveEnv) (saveList : List SaveStateDescriptor) (file : String) :
    List SaveStateDescriptor :=
  let slot := parseSlot file
  if slotInRange env slot then
    match env.openForLoading file with
    | some inp =>
      let r := env.getSavegameDescription inp
      if r.1 then saveList ++ [SaveStateDescriptor.ofSlot slot r.2] else saveList
    | none => saveList
  else saveList

/-- The comparator `SaveStateDescriptorSlotComparator`, as the order the sort produces. -/
def slotLE (a b : SaveStateDescriptor) : Prop := a.slot ≤ b.slot

instance : DecidableRel slotLE := fun a b => inferInstanceAs (Decidable (a.slot ≤ b.slot))

/-- Modelled from the spec: `Common::sort` is not part of this file; the spec says the
final list is sorted ascending by slot, which an insertion sort on the slot does. -/
def sortBySlot (l : List SaveStateDescriptor) : List SaveStateDescriptor :=
  l.insertionSort slotLE

/-- The method `GlkMetaEngine::listSaves`. -/
def listSaves (env : SaveEnv) (target : String) : List SaveStateDescriptor :=
  let filenames := env.listSavefiles (savePattern target)
  let saveList := filenames.foldl (listSavesStep env) []
  sortBySlot saveList

/-- The method `GlkMetaEngine::getMaximumSaveSlot`. -/
def getMaximumSaveSlot (env : SaveEnv) : Int := env.MAX_SAVES

/-- The method `GlkMetaEngine::querySaveMetaInfos`. -/
def querySaveMetaInfos (env : SaveEnv) (target : String) (slot : Int) :
    SaveStateDescriptor :=
  let filename := formatSaveName target slot
  let inp := env.openForLoading filename
  let ssd := SaveStateDescriptor.default
  match inp with
  | some s =>
    let r := env.getSavegameMetaInfo s ssd
    let ssd := r.2.setSaveSlot slot
    if r.1 then ssd else SaveStateDescriptor.default
  | none => SaveStateDescriptor.default

/-! ## Sub-engines, descriptors and the host -/

/-- The sub-engine meta classes `Glk::X::XMetaEngine` the file dispatches over. -/
inductive SubEngine where
  | Adrift | AdvSys | AGT | Alan2 | Alan3 | Archetype | Frotz | Glulxe | Hugo | JACL
  | Level9 | Magnetic | Quest | Scott | TADS
  deriving DecidableEq, Repr

/-- The engine classes `createInstance` can construct. -/
inductive EngineClass where
  | Adrift | AdvSys | AGT | Alan2 | Alan3 | Archetype | Frotz | Glulxe | Hugo | JACL
  | Level9 | Magnetic | Quest | Scott | TADS2 | TADS3
  deriving DecidableEq, Repr

/-- The record `Glk::GameDescriptor`; `none` is a null `const char *`. -/
structure GameDescriptor where
  _gameId : Option String
  _description : Option String
  _options : Nat
  deriving DecidableEq, Repr

/-- The value `Glk::GameDescriptor::empty()`. -/
def GameDescriptor.empty : GameDescriptor :=
  { _gameId := none, _description := none, _options := 0 }

/-- The record `PlainGameDescriptor` of the host. -/
structure PlainGameDescriptor where
  gameId : Option String
  description : Option String
  deriving DecidableEq, Repr

/-- The value-initialised `PlainGameDescriptor()`. -/
def PlainGameDescriptor.empty : PlainGameDescriptor :=
  { gameId := none, description := none }

/-- The conversion of a `GameDescriptor` to a `PlainGameDescriptor`. -/
def GameDescriptor.toPlain (gd : GameDescriptor) : PlainGameDescriptor :=
  { gameId := gd._gameId, description := gd._description }

/-- Languages of the host; `none` is `Common::UNK_LANG`. -/
abbrev Language := Option Nat

/-- Platforms of the host; `none` is `Common::kPlatformUnknown`. -/
abbrev Platform := Option Nat

/-- The record `Glk::GlkGameDescription`. -/
structure GlkGameDescription where
  _gameId : String
  _language : Language
  _platform : Platform
  _filename : String
  _md5 : String
  _options : Nat
  deriving DecidableEq, Repr

/-- A file system node: its name. -/
structure FSNode where
  name : String
  deriving DecidableEq, Repr

/-- The type `Common::FSList`. -/
abbrev FSList := List FSNode

/-- The record `DetectedGame`, as far as this file reads or writes it. -/
structure DetectedGame where
  engineId : String
  gameId : String
  description : String
  filename : String
  deriving DecidableEq, Repr

/-- The type `DetectedGames`. -/
abbrev DetectedGames := List DetectedGame

/-- What the sub-engines provide to this file. -/
structure SubEngines where
  /-- The static `findGame(gameId)` of each sub-engine. -/
  findGame : SubEngine → String → GameDescriptor
  /-- The matches the static `detectGames(fslist, detectedGames)` of each sub-engine
  appends to the list it is handed. -/
  detectGames : SubEngine → FSList → DetectedGames
  /-- The game ids of the static table of each sub-engine. -/
  gameIds : SubEngine → List String
  /-- The constant `Glk::TADS::OPTION_TADS3`. -/
  OPTION_TADS3 : Nat
  /-- The value the default constructor of `GlkGameDescription` leaves in `_options`. -/
  defaultOptions : Nat

/-- What `ConfMan`, the file system and the MD5 helper provide to `createInstance`. -/
structure Host where
  /-- The value `ConfMan.get("gameid")`. -/
  gameid : String
  /-- The value `ConfMan.get("filename")`, empty when not configured. -/
  filename : String
  /-- The value `ConfMan.get("path")`. -/
  path : String
  /-- The value `ConfMan.get("language")` when `ConfMan.hasKey("language")`. -/
  language : Option String
  /-- The value `ConfMan.get("platform")` when `ConfMan.hasKey("platform")`. -/
  platform : Option String
  /-- The function `Common::parseLanguage`. -/
  parseLanguage : String → Language
  /-- The function `Common::parsePlatform`. -/
  parsePlatform : String → Platform
  /-- The files `FSNode(path).getChildren(fslist, kListFilesOnly)` lists, in order. -/
  getChildren : String → FSList
  /-- The call `f.open(FSNode(path).getChild(name))`: the bytes, or `none` on failure. -/
  openFile : String → String → Option (List Nat)
  /-- The call `Common::computeStreamMD5AsString(f, length)`. -/
  computeStreamMD5AsString : List Nat → Nat → String

/-- Error codes of `Common::Error`. -/
inductive ErrorCode where
  | kNoError | kNoGameDataFoundError | kUnsupportedGameidError | kUnsupportedColorMode
  | kReadPermissionDenied | kWritePermissionDenied | kPathDoesNotExist | kReadingFailed
  | kEnginePluginNotFound | kUserCanceled | kUnknownError
  deriving DecidableEq, Repr

/-- An engine object: its class and the game description its constructor received. -/
structure Engine where
  cls : EngineClass
  gameDesc : GlkGameDescription
  deriving DecidableEq, Repr

/-! ## Clash detection -/

/-- The type `Common::StringMap`, game id to owner. -/
abbrev StringMap := List (String × String)

/-- A clash report: the game id, its recorded owner and the sub-engine that met it. -/
structure Clash where
  gameId : String
  owner : String
  claimant : String
  deriving DecidableEq, Repr

/-- The shared map together with the diagnostic channel. -/
structure ClashState where
  map : StringMap
  clashes : List Clash
  deriving DecidableEq, Repr

/-- Name under which a sub-engine registers its game ids. -/
def SubEngine.name : SubEngine → String
  | .Adrift => "Adrift"
  | .AdvSys => "AdvSys"
  | .AGT => "AGT"
  | .Alan2 => "Alan2"
  | .Alan3 => "Alan3"
  | .Archetype => "Archetype"
  | .Frotz => "Frotz"
  | .Glulxe => "Glulxe"
  | .Hugo => "Hugo"
  | .JACL => "JACL"
  | .Level9 => "Level9"
  | .Magnetic => "Magnetic"
  | .Quest => "Quest"
  | .Scott => "Scott"
  | .TADS => "TADS"

/-- Modelled from the spec: the sub-engines' `detectClashes(map)` are not part of this
file.  One game id of a sub-engine is registered: if the id already has a different
owner a clash is reported and the check goes on, otherwise the id is entered with the
sub-engine as its owner. -/
def registerGameId (owner : String) (st : ClashState) (gameId : String) : ClashState :=
  match st.map.lookup gameId with
  | some prev =>
    if prev ≠ owner then
      { st with clashes := st.clashes ++ [{ gameId := gameId, owner := prev, claimant := owner }] }
    else st
  | none => { st with map := st.map ++ [(gameId, owner)] }

/-- Modelled from the spec: the static `detectClashes(map)` of a sub-engine, which
collects all game ids the sub-engine can claim into the shared map. -/
def subDetectClashes (S : SubEngines) (e : SubEngine) (st : ClashState) : ClashState :=
  (S.gameIds e).foldl (registerGameId e.name) st

/-- The method `GlkMetaEngine::detectClashes`; the result is the final map and what
went to the diagnostic channel. -/
def detectClashes (S : SubEngines) : ClashState :=
  let map : ClashState := { map := [], clashes := [] }
  let map := subDetectClashes S .Adrift map
  let map := subDetectClashes S .AdvSys map
  let map := subDetectClashes S .AGT map
  let map := subDetectClashes S .Alan2 map
  let map := subDetectClashes S .Alan3 map
  let map := subDetectClashes S .Archetype map
  let map := subDetectClashes S .Frotz map
  let map := subDetectClashes S .Glulxe map
  let map := subDetectClashes S .Hugo map
  let map := subDetectClashes S .JACL map
  let map := subDetectClashes S .Level9 map
  let map := subDetectClashes S .Magnetic map
  let map := subDetectClashes S .Quest map
  let map := subDetectClashes S .Scott map
  let map := subDetectClashes S .TADS map
  map

/-! ## Detection -/

/-- One run of `GlkMetaEngine::detectGames`: the clash reports sent to the diagnostic
channel and the returned list. -/
def detectGamesRun (S : SubEngines) (fslist : FSList) : List Clash × DetectedGames :=
  let clash := detectClashes S
  let detectedGames : DetectedGames := []
  let detectedGames := detectedGames ++ S.detectGames .Adrift fslist
  let detectedGames := detectedGames ++ S.detectGames .AdvSys fslist
  let detectedGames := detectedGames ++ S.detectGames .AGT fslist
  let detectedGames := detectedGames ++ S.detectGames .Alan2 fslist
  let detectedGames := detectedGames ++ S.detectGames .Alan3 fslist
  let detectedGames := detectedGames ++ S.detectGames .Archetype fslist
  let detectedGames := detectedGames ++ S.detectGames .Frotz fslist
  let detectedGames := detectedGames ++ S.detectGames .Glulxe fslist
  let detectedGames := detectedGames ++ S.detectGames .Hugo fslist
  let detectedGames := detectedGames ++ S.detectGames .JACL fslist
  let detectedGames := detectedGames ++ S.detectGames .Level9 fslist
  let detectedGames := detectedGames ++ S.detectGames .Magnetic fslist
  let detectedGames := detectedGames ++ S.detectGames .Quest fslist
  let detectedGames := detectedGames ++ S.detectGames .Scott fslist
  let detectedGames := detectedGames ++ S.detectGames .TADS fslist
  (clash.clashes, detectedGames)

/-- The value `GlkMetaEngine::detectGames` returns. -/
def detectGames (S : SubEngines) (fslist : FSList) : DetectedGames :=
  (detectGamesRun S fslist).2

/-- The test `!games.empty() && games.front().gameId == gameId` of `findFileByGameId`
on the detection `games = detectGames(singleList)` of the single file `i`. -/
def frontMatches (S : SubEngines) (gameId : String) (i : FSNode) : Bool :=
  let singleList : FSList := [i]
  let games := detectGames S singleList
  match games with
  | front :: _ => decide (front.gameId = gameId)
  | [] => false

/-- The loop of `findFileByGameId` over the directory listing. -/
def findFileLoop (S : SubEngines) (gameId : String) : FSList → String
  | [] => ""
  | i :: rest => if frontMatches S gameId i then i.name else findFileLoop S gameId rest

/-- The method `GlkMetaEngine::findFileByGameId`. -/
def findFileByGameId (S : SubEngines) (H : Host) (gameId : String) : String :=
  let fslist := H.getChildren H.path
  findFileLoop S gameId fslist

/-- The method `GlkMetaEngine::findGame` with its `FIND_GAME` expansions. -/
def findGame (S : SubEngines) (gameId : String) : PlainGameDescriptor :=
  let gdAdrift := S.findGame .Adrift gameId
  if gdAdrift._description.isSome then gdAdrift.toPlain else
  let gdAdvSys := S.findGame .AdvSys gameId
  if gdAdvSys._description.isSome then gdAdvSys.toPlain else
  let gdAlan2 := S.findGame .Alan2 gameId
  if gdAlan2._description.isSome then gdAlan2.toPlain else
  let gdAGT := S.findGame .AGT gameId
  if gdAGT._description.isSome then gdAGT.toPlain else
  let gdAlan3 := S.findGame .Alan3 gameId
  if gdAlan3._description.isSome then gdAlan3.toPlain else
  let gdArchetype := S.findGame .Archetype gameId
  if gdArchetype._description.isSome then gdArchetype.toPlain else
  let gdFrotz := S.findGame .Frotz gameId
  if gdFrotz._description.isSome then gdFrotz.toPlain else
  let gdGlulxe := S.findGame .Glulxe gameId
  if gdGlulxe._description.isSome then gdGlulxe.toPlain else
  let gdHugo := S.findGame .Hugo gameId
  if gdHugo._description.isSome then gdHugo.toPlain else
  let gdJACL := S.findGame .JACL gameId
  if gdJACL._description.isSome then gdJACL.toPlain else
  let gdLevel9 := S.findGame .Level9 gameId
  if gdLevel9._description.isSome then gdLevel9.toPlain else
  let gdMagnetic := S.findGame .Magnetic gameId
  if gdMagnetic._description.isSome then gdMagnetic.toPlain else
  let gdQuest := S.findGame .Quest gameId
  if gdQuest._description.isSome then gdQuest.toPlain else
  let gdScott := S.findGame .Scott gameId
  if gdScott._description.isSome then gdScott.toPlain else
  let gdTADS := S.findGame .TADS gameId
  if gdTADS._description.isSome then gdTADS.toPlain else
  PlainGameDescriptor.empty

/-! ## Instantiation -/

/-- The state the dispatch chain of `createInstance` works on: the game description
(passed by reference), the cell `*engine`, and the engines constructed so far. -/
structure Dispatch where
  gameDesc : GlkGameDescription
  engine : Option Engine
  constructed : List Engine
  deriving DecidableEq, Repr

/-- What a call of `createInstance` leaves behind: the returned code, the cell
`*engine`, and every engine whose constructor ran. -/
structure CreateResult where
  error : ErrorCode
  engine : Option Engine
  constructed : List Engine
  deriving DecidableEq, Repr

/-- The assignment `*engine = create<META, ENG>(syst, gameDesc)`. -/
def create (S : SubEngines) (sub : SubEngine) (cls : EngineClass) (st : Dispatch) :
    Dispatch :=
  let gd := S.findGame sub st.gameDesc._gameId
  if gd._description.isSome then
    let gameDesc := { st.gameDesc with _options := gd._options }
    let e : Engine := { cls := cls, gameDesc := gameDesc }
    { gameDesc := gameDesc, engine := some e, constructed := st.constructed ++ [e] }
  else
    { st with engine := none }

/-- An assignment `*engine = new ENG(syst, gameDesc)`. -/
def construct (cls : EngineClass) (st : Dispatch) : Dispatch :=
  let e : Engine := { cls := cls, gameDesc := st.gameDesc }
  { st with engine := some e, constructed := st.constructed ++ [e] }

/-- The statement `return Common::kNoError` at the end of `createInstance`. -/
def returnNoError (st : Dispatch) : CreateResult :=
  { error := .kNoError, engine := st.engine, constructed := st.constructed }

/-- The part "Create the correct engine" of `createInstance`. -/
def createEngine (S : SubEngines) (st : Dispatch) : CreateResult :=
  let st := { st with engine := none }
  let st := create S .Adrift .Adrift st
  if st.engine.isSome then returnNoError st else
  let st := create S .AdvSys .AdvSys st
  if st.engine.isSome then returnNoError st else
  let st := create S .AGT .AGT st
  if st.engine.isSome then returnNoError st else
  let st := create S .Alan2 .Alan2 st
  if st.engine.isSome then returnNoError st else
  let st := create S .Alan3 .Alan3 st
  if st.engine.isSome then returnNoError st else
  let st := create S .Archetype .Archetype st
  if st.engine.isSome then returnNoError st else
  let st := create S .Frotz .Frotz st
  if st.engine.isSome then returnNoError st else
  let st := create S .Glulxe .Glulxe st
  if st.engine.isSome then returnNoError st else
  let st := create S .Hugo .Hugo st
  if st.engine.isSome then returnNoError st else
  let st := create S .JACL .JACL st
  if st.engine.isSome then returnNoError st else
  let st := create S .Level9 .Level9 st
  if st.engine.isSome then returnNoError st else
  let st := create S .Magnetic .Magnetic st
  if st.engine.isSome then returnNoError st else
  let st := create S .Quest .Quest st
  if st.engine.isSome then returnNoError st else
  let st := create S .Scott .Scott st
  if st.engine.isSome then returnNoError st else
  let td := S.findGame .TADS st.gameDesc._gameId
  if td._description.isSome then
    if td._options &&& S.OPTION_TADS3 ≠ 0 then
      returnNoError (construct .TADS3 st)
    else
      returnNoError (construct .TADS2 st)
  else
    { error := .kNoGameDataFoundError, engine := st.engine, constructed := st.constructed }

/-- The method `GlkMetaEngine::createInstance`; `engine0` is what `*engine` held at
the call. -/
def createInstance (S : SubEngines) (H : Host) (engine0 : Option Engine) : CreateResult :=
  let gameDesc : GlkGameDescription :=
    { _gameId := H.gameid, _filename := H.filename, _language := none, _platform := none,
      _md5 := "", _options := S.defaultOptions }
  let gameDesc :=
    match H.language with
    | some l => { gameDesc with _language := H.parseLanguage l }
    | none => gameDesc
  let gameDesc :=
    match H.platform with
    | some p => { gameDesc with _platform := H.parsePlatform p }
    | none => gameDesc
  let wasEmpty := decide (gameDesc._filename = "")
  let gameDesc :=
    if wasEmpty then { gameDesc with _filename := findFileByGameId S H gameDesc._gameId }
    else gameDesc
  if wasEmpty && decide (gameDesc._filename = "") then
    { error := .kNoGameDataFoundError, engine := engine0, constructed := [] }
  else
    match H.openFile H.path gameDesc._filename with
    | none => { error := .kNoGameDataFoundError, engine := engine0, constructed := [] }
    | some f =>
      let gameDesc := { gameDesc with _md5 := H.computeStreamMD5AsString f 5000 }
      createEngine S { gameDesc := gameDesc, engine := engine0, constructed := [] }

/-! ## Specification-side definitions -/

/-- The entry the spec expects a listed file to contribute: a slot in range read from
the suffix, a file that opens, and a description the reader extracts. -/
def expectedSaveEntry (env : SaveEnv) (file : String) : Option SaveStateDescriptor :=
  if 0 ≤ parseSlot file ∧ parseSlot file ≤ (env.MAX_SAVES : Int) then
    match env.openForLoading file with
    | some inp =>
      if (env.getSavegameDescription inp).1 then
        some (SaveStateDescriptor.ofSlot (parseSlot file) (env.getSavegameDescription inp).2)
      else none
    | none => none
  else none

instance : IsTotal SaveStateDescriptor slotLE := ⟨fun a b => Int.le_total a.slot b.slot⟩

instance : IsTrans SaveStateDescriptor slotLE := ⟨fun _ _ _ h1 h2 => Int.le_trans h1 h2⟩

/-- The fixed order of `detectGames`, `detectClashes`, `getSupportedGames` and of the
dispatch chain of `createInstance`. -/
def dispatchOrder : List SubEngine :=
  [.Adrift, .AdvSys, .AGT, .Alan2, .Alan3, .Archetype, .Frotz, .Glulxe, .Hugo, .JACL,
   .Level9, .Magnetic, .Quest, .Scott, .TADS]

/-- The instantiations `create<META, ENG>` of the dispatch chain, in source order. -/
def templateChain : List (SubEngine × EngineClass) :=
  [(.Adrift, .Adrift), (.AdvSys, .AdvSys), (.AGT, .AGT), (.Alan2, .Alan2),
   (.Alan3, .Alan3), (.Archetype, .Archetype), (.Frotz, .Frotz), (.Glulxe, .Glulxe),
   (.Hugo, .Hugo), (.JACL, .JACL), (.Level9, .Level9), (.Magnetic, .Magnetic),
   (.Quest, .Quest), (.Scott, .Scott)]

/-- The last branches of the dispatch chain: the TADS lookup with its choice between
TADS3 and TADS2, and the final `else`. -/
def tadsBranch (S : SubEngines) (st : Dispatch) : CreateResult :=
  let td := S.findGame .TADS st.gameDesc._gameId
  if td._description.isSome then
    if td._options &&& S.OPTION_TADS3 ≠ 0 then
      returnNoError (construct .TADS3 st)
    else
      returnNoError (construct .TADS2 st)
  else
    { error := .kNoGameDataFoundError, engine := st.engine, constructed := st.constructed }

/-- The dispatch chain as a loop over a list of instantiations, ending in the TADS
branch; `createEngine` is this loop on `templateChain`. -/
def createEngineLoop (S : SubEngines) : List (SubEngine × EngineClass) → Dispatch → CreateResult
  | [], st => tadsBranch S st
  | (sub, cls) :: rest, st =>
    let st := create S sub cls st
    if st.engine.isSome then returnNoError st else createEngineLoop S rest st

/-- Whether the static `findGame` of a sub-engine knows the id (non-null description). -/
def claimsId (S : SubEngines) (gameId : String) (e : SubEngine) : Bool :=
  (S.findGame e gameId)._description.isSome

/-- The first sub-engine of the fixed order that knows the id. -/
def firstOwner (S : SubEngines) (gameId : String) : Option SubEngine :=
  dispatchOrder.find? (claimsId S gameId)

/-- The engine class a sub-engine stands for; TADS chooses by the `OPTION_TADS3` bit of
its descriptor for the id. -/
def engineClassOf (S : SubEngines) (gameId : String) : SubEngine → EngineClass
  | .Adrift => .Adrift
  | .AdvSys => .AdvSys
  | .AGT => .AGT
  | .Alan2 => .Alan2
  | .Alan3 => .Alan3
  | .Archetype => .Archetype
  | .Frotz => .Frotz
  | .Glulxe => .Glulxe
  | .Hugo => .Hugo
  | .JACL => .JACL
  | .Level9 => .Level9
  | .Magnetic => .Magnetic
  | .Quest => .Quest
  | .Scott => .Scott
  | .TADS =>
    if (S.findGame .TADS gameId)._options &&& S.OPTION_TADS3 ≠ 0 then .TADS3 else .TADS2

/-- The options the dispatch chain leaves in the game description it hands to the
engine of a sub-engine: the descriptor's for a `create<META, ENG>` instantiation, the
untouched ones in the TADS branch. -/
def optionsHanded (S : SubEngines) (gameDesc : GlkGameDescription) : SubEngine → Nat
  | .TADS => gameDesc._options
  | e => (S.findGame e gameDesc._gameId)._options

/-- The engine the dispatch chain constructs when sub-engine `e` is the one that
claims the id. -/
def engineFor (S : SubEngines) (gameDesc : GlkGameDescription) (e : SubEngine) : Engine :=
  { cls := engineClassOf S gameDesc._gameId e,
    gameDesc := { gameDesc with _options := optionsHanded S gameDesc e } }

/-- The file name `createInstance` goes on with: the configured one, or the one
`findFileByGameId` finds when none is configured. -/
def resolvedFilename (S : SubEngines) (H : Host) : String :=
  if H.filename = "" then findFileByGameId S H H.gameid else H.filename

/-- The game description `createInstance` has populated when it reaches the dispatch
chain, for an opened file with bytes `f`. -/
def populatedGameDesc (S : SubEngines) (H : Host) (f : List Nat) : GlkGameDescription :=
  { _gameId := H.gameid,
    _language := match H.language with
      | some l => H.parseLanguage l
      | none => none,
    _platform := match H.platform with
      | some p => H.parsePlatform p
      | none => none,
    _filename := resolvedFilename S H,
    _md5 := H.computeStreamMD5AsString f 5000,
    _options := S.defaultOptions }

/-- The (game id, owner) pairs the sub-engines of a list register, in order. -/
def claimPairs (S : SubEngines) : List SubEngine → List (String × String)
  | [] => []
  | e :: es => (S.gameIds e).map (fun g => (g, e.name)) ++ claimPairs S es

/-- Registration of a list of (game id, owner) pairs, one after the other. -/
def registerAll (st : ClashState) (pairs : List (String × String)) : ClashState :=
  pairs.foldl (fun st p => registerGameId p.2 st p.1) st

/-- The order in which `findGame` expands `FIND_GAME`. -/
def findGameOrder : List SubEngine :=
  [.Adrift, .AdvSys, .Alan2, .AGT, .Alan3, .Archetype, .Frotz, .Glulxe, .Hugo, .JACL,
   .Level9, .Magnetic, .Quest, .Scott, .TADS]

/-- The `FIND_GAME` expansions as a loop over a list of sub-engines; `findGame` is this
loop on `findGameOrder`. -/
def findGameLoop (S : SubEngines) (gameId : String) : List SubEngine → PlainGameDescriptor
  | [] => PlainGameDescriptor.empty
  | e :: rest =>
    if (S.findGame e gameId)._description.isSome then (S.findGame e gameId).toPlain
    else findGameLoop S gameId rest

/-! ## Example worlds -/

/-- A `findGame` over one table of rows (sub-engine, game id, description, options). -/
def exampleFindGame (table : List (SubEngine × String × String × Nat)) (e : SubEngine)
    (gameId : String) : GameDescriptor :=
  match table.find? (fun r => decide (r.1 = e) && decide (r.2.1 = gameId)) with
  | some r => { _gameId := some r.2.1, _description := some r.2.2.1, _options := r.2.2.2 }
  | none => GameDescriptor.empty

/-- Sub-engines given by a table of rows (sub-engine, game id, description, options) and
a list of detections (sub-engine, file name, game id); `OPTION_TADS3` is bit 0 and the
default options are 0. -/
def exampleSubEngines (table : List (SubEngine × String × String × Nat))
    (detections : List (SubEngine × String × String)) : SubEngines :=
  { findGame := exampleFindGame table,
    detectGames := fun e fslist =>
      fslist.flatMap (fun node =>
        (detections.filter (fun d => decide (d.1 = e) && decide (d.2.1 = node.name))).map
          (fun d => { engineId := "glk", gameId := d.2.2, description := d.2.2,
                      filename := node.name })),
    gameIds := fun e => (table.filter (fun r => decide (r.1 = e))).map (fun r => r.2.1),
    OPTION_TADS3 := 1,
    defaultOptions := 0 }

/-- A host with the given configured game id and file name whose game folder holds
the listed files, each of which opens. -/
def exampleHost (gameid filename : String) (files : List String) : Host :=
  { gameid := gameid,
    filename := filename,
    path := "games",
    language := none,
    platform := none,
    parseLanguage := fun _ => none,
    parsePlatform := fun _ => none,
    getChildren := fun _ => files.map FSNode.mk,
    openFile := fun _ name => if name ∈ files then some [71, 108, 107] else none,
    computeStreamMD5AsString := fun _ _ => "d41d8cd9" }

/-- Tables in which Adrift and TADS both know the id `x`, TADS with the TADS3 bit. -/
def clashAdriftTads : SubEngines :=
  exampleSubEngines [(.Adrift, "x", "An Adrift game", 0), (.TADS, "x", "A TADS3 game", 1)] []

/-- Tables in which only TADS knows the id `x`, with the TADS3 bit set. -/
def onlyTads3 : SubEngines :=
  exampleSubEngines [(.TADS, "x", "A TADS3 game", 1)] []

/-- Tables in which AGT and Alan2 both know the id `x`. -/
def clashAgtAlan2 : SubEngines :=
  exampleSubEngines [(.AGT, "x", "An AGT game", 0), (.Alan2, "x", "An Alan2 game", 0)] []

/-- A glob matcher in the manner of `Common::matchString`: `*` stands for any run of
characters, `?` for one character, `#` for one digit, anything else for itself. -/
def globMatch : List Char → List Char → Bool
  | [], s => s.isEmpty
  | p :: ps, s =>
    if p = '*' then s.tails.any (fun t => globMatch ps t)
    else
      match s with
      | [] => false
      | c :: cs =>
        (decide (p = '?') || (decide (p = '#') && isDigit c) ||
          (decide (p ≠ '#') && decide (p = c))) && globMatch ps cs

/-- The files of the example save directory. -/
def exampleSaveDir : List String := ["t.003", "t.005", "t.txt", "u.001", "t.0075"]

/-- A save manager over `exampleSaveDir`, listing the files that match the pattern it is
given: `t.003` is a good save, `t.005` opens but the reader fails on it. -/
def exampleSaveEnv : SaveEnv :=
  { MAX_SAVES := 99,
    listSavefiles := fun pattern =>
      exampleSaveDir.filter (fun file => globMatch pattern.data file.data),
    openForLoading := fun name =>
      if name = "t.003" then some [1]
      else if name = "t.005" then some [0]
      else if name = "u.001" then some [1]
      else none,
    getSavegameDescription := fun inp => if inp = [1] then (true, "third") else (false, ""),
    getSavegameMetaInfo := fun inp ssd =>
      if inp = [1] then (true, { ssd with description := "third", playTime := 60 })
      else (false, { ssd with description := "half" }) }

/-! ## Save slots: naming, listing, metadata -/

theorem digitChar_spec (d : Nat) (h : d < 10) :
    isDigit (digitChar d) = true ∧ (digitChar d).toNat - 48 = d := by
  interval_cases d <;> decide

theorem decimalAux_digits (fuel n : Nat) : ∀ c ∈ decimalAux fuel n, isDigit c = true := by
  induction fuel generalizing n with
  | zero => intro c hc; simp [decimalAux] at hc
  | succ k ih =>
    intro c hc
    unfold decimalAux at hc
    split at hc
    · simp only [List.mem_singleton] at hc
      subst hc
      exact (digitChar_spec n (by assumption)).1
    · rcases List.mem_append.1 hc with h | h
      · exact ih _ c h
      · simp only [List.mem_singleton] at h
        subst h
        exact (digitChar_spec (n % 10) (Nat.mod_lt _ (by decide))).1

theorem atoiLoop_decimalAux (fuel : Nat) : ∀ (n : Nat) (rest : List Char), n < fuel →
    atoiLoop 0 (decimalAux fuel n ++ rest) = atoiLoop n rest := by
  induction fuel with
  | zero => intro n rest h; omega
  | succ k ih =>
    intro n rest h
    unfold decimalAux
    split
    · rename_i hn
      have hd := digitChar_spec n hn
      simp [atoiLoop, hd.1, hd.2]
    · rename_i hn
      have hd := digitChar_spec (n % 10) (Nat.mod_lt _ (by decide))
      have hlt : n / 10 < k := by omega
      rw [List.append_assoc, ih (n / 10) _ hlt]
      simp only [List.singleton_append, atoiLoop, hd.1, hd.2, if_true]
      congr 1
      omega

theorem atoiLoop_decimal (n : Nat) : atoiLoop 0 (decimal n) = n := by
  have h := atoiLoop_decimalAux (n + 1) n [] (Nat.lt_succ_self n)
  simpa [decimal, atoiLoop] using h

theorem atoiLoop_zeros (k : Nat) (xs : List Char) :
    atoiLoop 0 (List.replicate k '0' ++ xs) = atoiLoop 0 xs := by
  induction k with
  | zero => simp
  | succ k ih =>
    rw [List.replicate_succ, List.cons_append, atoiLoop]
    have h0 : isDigit '0' = true := by decide
    have h1 : 0 * 10 + ('0'.toNat - 48) = 0 := by decide
    rw [if_pos h0, h1, ih]

theorem atoiLoop_padZeros (w n : Nat) : atoiLoop 0 (padZeros w (decimal n)) = n := by
  rw [padZeros, atoiLoop_zeros, atoiLoop_decimal]

theorem padZeros_digits (w n : Nat) : ∀ c ∈ padZeros w (decimal n), isDigit c = true := by
  intro c hc
  rcases List.mem_append.1 hc with h | h
  · have := (List.mem_replicate.1 h).2
    subst this
    decide
  · exact decimalAux_digits _ _ c h

theorem isDigit_bounds (c : Char) (h : isDigit c = true) : 48 ≤ c.toNat ∧ c.toNat ≤ 57 := by
  simpa [isDigit] using h

theorem atoi_of_digits (l : List Char) (h : ∀ c ∈ l, isDigit c = true) :
    atoi l = ((atoiLoop 0 l : Nat) : Int) := by
  cases l with
  | nil => simp [atoi, atoiLoop]
  | cons c cs =>
    have hb := isDigit_bounds c (h c (List.mem_cons_self _ _))
    have hs : isSpace c = false := by
      simp only [isSpace, Bool.or_eq_false_iff, beq_eq_false_iff_ne, Bool.and_eq_false_iff,
        decide_eq_false_iff_not]
      constructor
      · omega
      · right; omega
    have hm : c ≠ '-' := by
      intro hc; subst hc; revert hb; decide
    have hp : c ≠ '+' := by
      intro hc; subst hc; revert hb; decide
    simp [atoi, hs, atoiSigned, hm, hp]

theorem atoi_format03d (v : Int) : atoi (format03d v) = v := by
  unfold format03d
  split
  · rename_i hv
    have hs : isSpace '-' = false := by decide
    simp only [atoi, hs, atoiSigned, if_true, atoiLoop_padZeros]
    simp only [Bool.false_eq_true, if_false]
    omega
  · rename_i hv
    rw [atoi_of_digits _ (padZeros_digits 3 _), atoiLoop_padZeros]
    omega

theorem format03d_no_dot (v : Int) : '.' ∉ format03d v := by
  have hdot : isDigit '.' = false := by decide
  intro hmem
  unfold format03d at hmem
  split at hmem
  · rcases List.mem_cons.1 hmem with h | h
    · revert h; decide
    · have := padZeros_digits 2 _ _ h
      rw [hdot] at this; exact Bool.noConfusion this
  · have := padZeros_digits 3 _ _ hmem
    rw [hdot] at this; exact Bool.noConfusion this

theorem strrchr_none (s : List Char) (c : Char) (h : c ∉ s) : strrchr s c = none := by
  induction s with
  | nil => rfl
  | cons x xs ih =>
    have hx : x ≠ c := fun e => h (e ▸ List.mem_cons_self _ _)
    have hxs : c ∉ xs := fun e => h (List.mem_cons_of_mem _ e)
    simp [strrchr, ih hxs, hx]

theorem strrchr_append_last (t ds : List Char) (c : Char) (h : c ∉ ds) :
    strrchr (t ++ c :: ds) c = some (c :: ds) := by
  induction t with
  | nil => simp [strrchr, strrchr_none ds c h]
  | cons x xs ih => simp [strrchr, ih]

theorem parseSlot_formatSaveName (target : String) (s : Int) :
    parseSlot (formatSaveName target s) = s := by
  simp only [parseSlot, formatSaveName]
  rw [strrchr_append_last _ _ _ (format03d_no_dot s)]
  simp [atoi_format03d]

theorem slotInRange_iff (env : SaveEnv) (s : Int) :
    slotInRange env s = true ↔ 0 ≤ s ∧ s ≤ (env.MAX_SAVES : Int) := by
  simp [slotInRange]

theorem listSavesStep_eq (env : SaveEnv) (acc : List SaveStateDescriptor) (file : String) :
    listSavesStep env acc file = acc ++ (expectedSaveEntry env file).toList := by
  unfold listSavesStep expectedSaveEntry
  by_cases hr : 0 ≤ parseSlot file ∧ parseSlot file ≤ (env.MAX_SAVES : Int)
  · have hr2 := (slotInRange_iff env (parseSlot file)).2 hr
    simp only [hr2, if_true, hr, and_self]
    cases env.openForLoading file with
    | none => simp
    | some inp =>
      by_cases hd : (env.getSavegameDescription inp).1 = true
      · simp [hd]
      · simp [hd]
  · have hr2 : slotInRange env (parseSlot file) = false := by
      rw [← Bool.not_eq_true, slotInRange_iff]; exact hr
    simp [hr2, hr]

theorem foldl_listSavesStep (env : SaveEnv) (files : List String) :
    ∀ acc, files.foldl (listSavesStep env) acc = acc ++ files.filterMap (expectedSaveEntry env) := by
  induction files with
  | nil => intro acc; simp
  | cons f fs ih =>
    intro acc
    rw [List.foldl_cons, ih, listSavesStep_eq]
    cases h : expectedSaveEntry env f <;> simp [List.filterMap_cons, h]

theorem listSaves_eq (env : SaveEnv) (target : String) :
    listSaves env target =
      sortBySlot ((env.listSavefiles (savePattern target)).filterMap (expectedSaveEntry env)) := by
  simp [listSaves, foldl_listSavesStep]

theorem expectedSaveEntry_slot (env : SaveEnv) (file : String) (d : SaveStateDescriptor)
    (h : expectedSaveEntry env file = some d) : 0 ≤ d.slot ∧ d.slot ≤ (env.MAX_SAVES : Int) := by
  unfold expectedSaveEntry at h
  split at h
  · rename_i hr
    split at h
    · split at h
      · simp only [Option.some.injEq] at h
        subst h
        exact hr
      · exact Option.noConfusion h
    · exact Option.noConfusion h
  · exact Option.noConfusion h

theorem parseSlot_two_digits (p : String) (d1 d2 : Nat) (h1 : d1 < 10) (h2 : d2 < 10) :
    parseSlot (p ++ String.mk ['.', '0', digitChar d1, digitChar d2]) =
      ((10 * d1 + d2 : Nat) : Int) := by
  have hd1 := digitChar_spec d1 h1
  have hd2 := digitChar_spec d2 h2
  have hz : isDigit '0' = true := by decide
  have hdig : ∀ c ∈ ['0', digitChar d1, digitChar d2], isDigit c = true := by
    intro c hc
    simp only [List.mem_cons, List.mem_singleton, List.not_mem_nil, or_false] at hc
    rcases hc with h | h | h <;> subst h
    · exact hz
    · exact hd1.1
    · exact hd2.1
  have hnodot : '.' ∉ ['0', digitChar d1, digitChar d2] := by
    intro hmem
    have := hdig _ hmem
    revert this
    decide
  have hdata : (p ++ String.mk ['.', '0', digitChar d1, digitChar d2]).data =
      p.data ++ '.' :: ['0', digitChar d1, digitChar d2] := rfl
  simp only [parseSlot, hdata]
  rw [strrchr_append_last _ _ _ hnodot]
  simp only [List.tail_cons]
  rw [atoi_of_digits _ hdig]
  have hz2 : '0'.toNat - 48 = 0 := by decide
  simp only [atoiLoop, hz, hd1.1, hd2.1, hd1.2, hd2.2, hz2, if_true]
  congr 1
  omega

/-- C5. `listSaves` enumerates the files the save manager lists for the pattern
`target + ".0##"`; it returns its entries in ascending order of slot, every slot lies in
`[0, MAX_SAVES]`, the entries are exactly those contributed by the enumerated files
whose suffix parses to a slot in range, that open and whose description is read, and
a listing of a good save at slot 3 and an unreadable one at slot 5 gives the single
entry for slot 3.  A name that ends in `.0` and two digits is read as that two-digit
slot. -/
theorem listSaves_sorted_exact (env : SaveEnv) (target : String) :
    List.Sorted (fun a b => a.slot ≤ b.slot) (listSaves env target) ∧
    (∀ d ∈ listSaves env target, 0 ≤ d.slot ∧ d.slot ≤ (env.MAX_SAVES : Int)) ∧
    List.Perm (listSaves env target)
      ((env.listSavefiles (target ++ ".0##")).filterMap (fun file =>
        if 0 ≤ parseSlot file ∧ parseSlot file ≤ (env.MAX_SAVES : Int) then
          match env.openForLoading file with
          | some inp =>
            if (env.getSavegameDescription inp).1 then
              some (SaveStateDescriptor.ofSlot (parseSlot file)
                (env.getSavegameDescription inp).2)
            else none
          | none => none
        else none)) ∧
    (∀ (in3 : InSaveFile) (d3 : String), 3 ≤ env.MAX_SAVES →
      env.listSavefiles (target ++ ".0##") =
        [formatSaveName target 3, formatSaveName target 5] →
      env.openForLoading (formatSaveName target 3) = some in3 →
      env.getSavegameDescription in3 = (true, d3) →
      (env.openForLoading (formatSaveName target 5) = none ∨
        ∃ in5, env.openForLoading (formatSaveName target 5) = some in5 ∧
          (env.getSavegameDescription in5).1 = false) →
      listSaves env target = [SaveStateDescriptor.ofSlot 3 d3]) ∧
    (∀ (p : String) (d1 d2 : Nat), d1 < 10 → d2 < 10 →
      parseSlot (p ++ String.mk ['.', '0', digitChar d1, digitChar d2]) =
        ((10 * d1 + d2 : Nat) : Int)) := by
  have hpat : savePattern target = target ++ ".0##" := rfl
  have hperm : List.Perm (listSaves env target)
      ((env.listSavefiles (target ++ ".0##")).filterMap (expectedSaveEntry env)) := by
    rw [listSaves_eq, hpat]
    exact List.perm_insertionSort _ _
  refine ⟨?_, ?_, hperm, ?_, parseSlot_two_digits⟩
  · rw [listSaves_eq]
    exact List.sorted_insertionSort slotLE _
  · intro d hd
    have hd2 := hperm.subset hd
    obtain ⟨file, _, hfile⟩ := List.mem_filterMap.1 hd2
    exact expectedSaveEntry_slot env file d hfile
  · intro in3 d3 hmax hlist hopen3 hdesc3 h5
    have e3 : expectedSaveEntry env (formatSaveName target 3) =
        some (SaveStateDescriptor.ofSlot 3 d3) := by
      have hmax2 : (3 : Int) ≤ (env.MAX_SAVES : Int) := by exact_mod_cast hmax
      simp [expectedSaveEntry, parseSlot_formatSaveName, hopen3, hdesc3, hmax2]
    have e5 : expectedSaveEntry env (formatSaveName target 5) = none := by
      rcases h5 with h | ⟨in5, ho, hf⟩
      · simp [expectedSaveEntry, h]
      · simp [expectedSaveEntry, ho, hf]
    rw [listSaves_eq, hpat, hlist]
    simp [List.filterMap_cons, e3, e5, sortBySlot]

/-- C6. Formatting a save name for a slot in `[0, MAX_SAVES]` and parsing it the way
`listSaves` does gives the slot back, for every target; for a slot outside the range
the parsed value fails the range test and `listSaves` leaves the file out. -/
theorem slot_name_roundtrip (env : SaveEnv) (target : String) (s : Int) :
    (0 ≤ s ∧ s ≤ (env.MAX_SAVES : Int) →
      parseSlot (formatSaveName target s) = s ∧
      slotInRange env (parseSlot (formatSaveName target s)) = true) ∧
    (¬ (0 ≤ s ∧ s ≤ (env.MAX_SAVES : Int)) →
      slotInRange env (parseSlot (formatSaveName target s)) = false ∧
      (∀ saveList, listSavesStep env saveList (formatSaveName target s) = saveList) ∧
      (∀ d ∈ listSaves env target, d.slot ≠ s)) := by
  constructor
  · intro h
    rw [parseSlot_formatSaveName]
    exact ⟨rfl, (slotInRange_iff env s).2 h⟩
  · intro h
    have hr : slotInRange env (parseSlot (formatSaveName target s)) = false := by
      rw [parseSlot_formatSaveName, ← Bool.not_eq_true, slotInRange_iff]; exact h
    refine ⟨hr, ?_, ?_⟩
    · intro saveList
      simp [listSavesStep, hr]
    · intro d hd hs
      have hd2 : d ∈ (env.listSavefiles (savePattern target)).filterMap
          (expectedSaveEntry env) := by
        rw [listSaves_eq] at hd
        exact (List.perm_insertionSort _ _).subset hd
      obtain ⟨file, _, hfile⟩ := List.mem_filterMap.1 hd2
      exact h (hs ▸ expectedSaveEntry_slot env file d hfile)

/-- C7. `querySaveMetaInfos` returns the default descriptor (not carrying the requested
slot) when the file does not open or the metadata read fails, and the descriptor the
reader filled in, with the requested slot, when both succeed. -/
theorem querySaveMetaInfos_contract (env : SaveEnv) (target : String) (slot : Int) :
    ((env.openForLoading (formatSaveName target slot) = none ∨
        ∃ inp, env.openForLoading (formatSaveName target slot) = some inp ∧
          (env.getSavegameMetaInfo inp SaveStateDescriptor.default).1 = false) →
      querySaveMetaInfos env target slot = SaveStateDescriptor.default ∧
      (0 ≤ slot → (querySaveMetaInfos env target slot).slot ≠ slot)) ∧
    (∀ inp, env.openForLoading (formatSaveName target slot) = some inp →
      (env.getSavegameMetaInfo inp SaveStateDescriptor.default).1 = true →
      querySaveMetaInfos env target slot =
        (env.getSavegameMetaInfo inp SaveStateDescriptor.default).2.setSaveSlot slot ∧
      (querySaveMetaInfos env target slot).slot = slot) := by
  constructor
  · intro h
    have hq : querySaveMetaInfos env target slot = SaveStateDescriptor.default := by
      rcases h with h | ⟨inp, ho, hf⟩
      · simp [querySaveMetaInfos, h]
      · simp [querySaveMetaInfos, ho, hf]
    refine ⟨hq, ?_⟩
    intro hs
    rw [hq]
    simp only [SaveStateDescriptor.default]
    omega
  · intro inp ho ht
    simp [querySaveMetaInfos, ho, ht, SaveStateDescriptor.setSaveSlot]

/-! ## Dispatch chain -/

theorem createEngine_eq_loop (S : SubEngines) (st : Dispatch) :
    createEngine S st = createEngineLoop S templateChain { st with engine := none } := rfl

theorem create_of_claims (S : SubEngines) (sub : SubEngine) (cls : EngineClass) (st : Dispatch)
    (h : claimsId S st.gameDesc._gameId sub = true) :
    create S sub cls st =
      { gameDesc := { st.gameDesc with _options := (S.findGame sub st.gameDesc._gameId)._options },
        engine := some ⟨cls, { st.gameDesc with
          _options := (S.findGame sub st.gameDesc._gameId)._options }⟩,
        constructed := st.constructed ++ [⟨cls, { st.gameDesc with
          _options := (S.findGame sub st.gameDesc._gameId)._options }⟩] } := by
  unfold claimsId at h
  simp [create, h]

theorem create_of_not_claims (S : SubEngines) (sub : SubEngine) (cls : EngineClass)
    (st : Dispatch) (hn : st.engine = none)
    (h : claimsId S st.gameDesc._gameId sub = false) : create S sub cls st = st := by
  unfold claimsId at h
  cases st
  simp only at hn
  subst hn
  simp [create, h]

theorem createEngineLoop_spec (S : SubEngines) :
    ∀ (chain : List (SubEngine × EngineClass)) (st : Dispatch), st.engine = none →
    createEngineLoop S chain st =
      match chain.find? (fun p => claimsId S st.gameDesc._gameId p.1) with
      | some p =>
        { error := .kNoError,
          engine := some ⟨p.2, { st.gameDesc with
            _options := (S.findGame p.1 st.gameDesc._gameId)._options }⟩,
          constructed := st.constructed ++ [⟨p.2, { st.gameDesc with
            _options := (S.findGame p.1 st.gameDesc._gameId)._options }⟩] }
      | none => tadsBranch S st := by
  intro chain
  induction chain with
  | nil => intro st _; simp [createEngineLoop]
  | cons p rest ih =>
    intro st hn
    obtain ⟨sub, cls⟩ := p
    by_cases hc : claimsId S st.gameDesc._gameId sub = true
    · simp [createEngineLoop, create_of_claims S sub cls st hc, returnNoError, List.find?_cons, hc]
    · have hc2 : claimsId S st.gameDesc._gameId sub = false := by simpa using hc
      simp only [createEngineLoop, create_of_not_claims S sub cls st hn hc2, hn, List.find?_cons,
        hc2]
      exact ih st hn

theorem templateChain_engineFor (S : SubEngines) (gd : GlkGameDescription)
    (p : SubEngine × EngineClass) (hp : p ∈ templateChain) :
    engineFor S gd p.1 = ⟨p.2, { gd with _options := (S.findGame p.1 gd._gameId)._options }⟩ := by
  simp only [templateChain, List.mem_cons, List.mem_singleton, List.not_mem_nil, or_false] at hp
  rcases hp with h | h | h | h | h | h | h | h | h | h | h | h | h | h <;> subst h <;> rfl

theorem dispatchOrder_eq : dispatchOrder = templateChain.map Prod.fst ++ [SubEngine.TADS] := rfl

theorem createEngine_spec (S : SubEngines) (st : Dispatch) :
    createEngine S st =
      match firstOwner S st.gameDesc._gameId with
      | some e =>
        { error := .kNoError, engine := some (engineFor S st.gameDesc e),
          constructed := st.constructed ++ [engineFor S st.gameDesc e] }
      | none =>
        { error := .kNoGameDataFoundError, engine := none, constructed := st.constructed } := by
  rw [createEngine_eq_loop, createEngineLoop_spec S templateChain _ rfl]
  simp only [firstOwner, dispatchOrder_eq, List.find?_append, List.find?_map]
  cases hf : templateChain.find? (fun p => claimsId S st.gameDesc._gameId p.1) with
  | some p =>
    have hp : p ∈ templateChain := List.mem_of_find?_eq_some hf
    have he := templateChain_engineFor S st.gameDesc p hp
    have hf2 : templateChain.find? (claimsId S st.gameDesc._gameId ∘ Prod.fst) = some p := hf
    simp [hf2, he]
  | none =>
    have hf2 : templateChain.find? (claimsId S st.gameDesc._gameId ∘ Prod.fst) = none := hf
    simp only [hf2, Option.map_none', Option.none_or, List.find?_cons, List.find?_nil]
    by_cases ht : claimsId S st.gameDesc._gameId .TADS = true
    · have ht2 : (S.findGame .TADS st.gameDesc._gameId)._description.isSome = true := ht
      by_cases hb : (S.findGame .TADS st.gameDesc._gameId)._options &&& S.OPTION_TADS3 = 0
      · simp [tadsBranch, ht, ht2, hb, returnNoError, construct, engineFor, engineClassOf,
          optionsHanded]
      · simp [tadsBranch, ht, ht2, hb, returnNoError, construct, engineFor, engineClassOf,
          optionsHanded]
    · have ht3 : claimsId S st.gameDesc._gameId .TADS = false := by simpa using ht
      have ht2 : (S.findGame .TADS st.gameDesc._gameId)._description.isSome = false := ht3
      simp [tadsBranch, ht3, ht2]

theorem createInstance_spec (S : SubEngines) (H : Host) (engine0 : Option Engine) :
    createInstance S H engine0 =
      if H.filename = "" ∧ findFileByGameId S H H.gameid = "" then
        { error := .kNoGameDataFoundError, engine := engine0, constructed := [] }
      else
        match H.openFile H.path (resolvedFilename S H) with
        | none => { error := .kNoGameDataFoundError, engine := engine0, constructed := [] }
        | some f =>
          createEngine S
            { gameDesc := populatedGameDesc S H f, engine := engine0, constructed := [] } := by
  unfold createInstance resolvedFilename populatedGameDesc resolvedFilename
  cases hl : H.language <;> cases hp : H.platform <;>
    by_cases hf : H.filename = "" <;>
    by_cases hg : findFileByGameId S H H.gameid = "" <;>
    simp [hf, hg]

theorem mem_dispatchOrder (e : SubEngine) : e ∈ dispatchOrder := by
  cases e <;> simp [dispatchOrder]

theorem firstOwner_eq_none_iff (S : SubEngines) (gameId : String) :
    firstOwner S gameId = none ↔ ∀ e : SubEngine, (S.findGame e gameId)._description = none := by
  unfold firstOwner
  rw [List.find?_eq_none]
  constructor
  · intro h e
    have := h e (mem_dispatchOrder e)
    simpa [claimsId] using this
  · intro h e _
    simp [claimsId, h e]

theorem firstOwner_claims (S : SubEngines) (gameId : String) (e : SubEngine)
    (h : firstOwner S gameId = some e) : (S.findGame e gameId)._description ≠ none := by
  have := List.find?_some h
  simpa [claimsId, Option.isSome_iff_ne_none] using this

theorem firstOwner_tads (S : SubEngines) (gameId : String)
    (hT : (S.findGame .TADS gameId)._description ≠ none)
    (hfirst : ∀ e, e ≠ SubEngine.TADS → (S.findGame e gameId)._description = none) :
    firstOwner S gameId = some .TADS := by
  have hc : ∀ e, e ≠ SubEngine.TADS → claimsId S gameId e = false := by
    intro e he
    simp [claimsId, hfirst e he]
  have ht : claimsId S gameId .TADS = true := by
    simpa [claimsId, Option.isSome_iff_ne_none] using hT
  simp [firstOwner, dispatchOrder, List.find?_cons, hc, ht]

/-- C1. `createInstance` returns `kNoGameDataFoundError` exactly when no file name is
configured and none is found, or the resolved file does not open, or no sub-engine
knows the id; otherwise it returns `kNoError`, the engine cell holds the engine of the
first sub-engine of the fixed order that knows the id, and that engine is the only one
constructed. -/
theorem createInstance_error_contract (S : SubEngines) (H : Host) (engine0 : Option Engine) :
    ((createInstance S H engine0).error = .kNoGameDataFoundError ↔
      (H.filename = "" ∧ findFileByGameId S H H.gameid = "") ∨
      H.openFile H.path (resolvedFilename S H) = none ∨
      (∀ e : SubEngine, (S.findGame e H.gameid)._description = none)) ∧
    ((createInstance S H engine0).error ≠ .kNoGameDataFoundError →
      (createInstance S H engine0).error = .kNoError ∧
      ∃ e eng, dispatchOrder.find? (fun x => (S.findGame x H.gameid)._description.isSome) = some e ∧
        (createInstance S H engine0).engine = some eng ∧
        eng.cls = engineClassOf S H.gameid e ∧
        (createInstance S H engine0).constructed = [eng]) := by
  rw [createInstance_spec]
  by_cases ha : H.filename = "" ∧ findFileByGameId S H H.gameid = ""
  · simp [ha]
  · rw [if_neg ha]
    cases ho : H.openFile H.path (resolvedFilename S H) with
    | none => simp
    | some f =>
      simp only [createEngine_spec, populatedGameDesc]
      cases hf : firstOwner S H.gameid with
      | none =>
        have hall := (firstOwner_eq_none_iff S H.gameid).1 hf
        simp [ha, hall]
      | some e =>
        have hne : ¬ ∀ e : SubEngine, (S.findGame e H.gameid)._description = none :=
          fun hall => by
            rw [(firstOwner_eq_none_iff S H.gameid).2 hall] at hf
            exact Option.noConfusion hf
        have hf2 : dispatchOrder.find? (fun x => (S.findGame x H.gameid)._description.isSome)
            = some e := hf
        simp only [ha, hne, or_self, false_or, reduceCtorEq, ne_eq, not_false_eq_true,
          List.nil_append, true_and, forall_const, iff_self]
        exact ⟨e, _, hf2, rfl, rfl, rfl⟩

/-- Witness for C1: in the example world where only TADS knows `x`, the call does
not fail and constructs one engine. -/
theorem createInstance_error_contract_witness :
    (createInstance onlyTads3 (exampleHost "x" "x.gam" ["x.gam"]) none).error = .kNoError ∧
    ∃ e eng,
      dispatchOrder.find? (fun x => (onlyTads3.findGame x "x")._description.isSome) = some e ∧
      (createInstance onlyTads3 (exampleHost "x" "x.gam" ["x.gam"]) none).engine = some eng ∧
      eng.cls = engineClassOf onlyTads3 "x" e ∧
      (createInstance onlyTads3 (exampleHost "x" "x.gam" ["x.gam"]) none).constructed = [eng] :=
  (createInstance_error_contract onlyTads3 (exampleHost "x" "x.gam" ["x.gam"]) none).2
    (by decide)

/-- C2 as stated fails: Adrift and TADS both know `x`, TADS with the TADS3 bit, the
file opens, and the engine constructed is the Adrift one. -/
theorem tads_subdispatch_counterexample :
    (clashAdriftTads.findGame .TADS "x")._description ≠ none ∧
    (clashAdriftTads.findGame .TADS "x")._options &&& clashAdriftTads.OPTION_TADS3 ≠ 0 ∧
    (exampleHost "x" "x.gam" ["x.gam"]).openFile "games"
      (resolvedFilename clashAdriftTads (exampleHost "x" "x.gam" ["x.gam"])) ≠ none ∧
    ((createInstance clashAdriftTads (exampleHost "x" "x.gam" ["x.gam"]) none).engine.map
      Engine.cls) = some .Adrift ∧
    ¬ ∃ eng, (createInstance clashAdriftTads (exampleHost "x" "x.gam" ["x.gam"]) none).engine
      = some eng ∧ eng.cls = .TADS3 := by
  decide

/-- C2, amended. When TADS knows the id, no sub-engine earlier in the chain knows it,
and the game file resolves and opens, `createInstance` succeeds and constructs a TADS3
engine if the descriptor has the `OPTION_TADS3` bit and a TADS2 engine if it has not. -/
theorem tads_subdispatch (S : SubEngines) (H : Host) (engine0 : Option Engine)
    (hT : (S.findGame .TADS H.gameid)._description ≠ none)
    (hfirst : ∀ e, e ≠ SubEngine.TADS → (S.findGame e H.gameid)._description = none)
    (hres : resolvedFilename S H ≠ "")
    (hopen : H.openFile H.path (resolvedFilename S H) ≠ none) :
    (createInstance S H engine0).error = .kNoError ∧
    ∃ eng, (createInstance S H engine0).engine = some eng ∧
      (createInstance S H engine0).constructed = [eng] ∧
      ((S.findGame .TADS H.gameid)._options &&& S.OPTION_TADS3 ≠ 0 → eng.cls = .TADS3) ∧
      ((S.findGame .TADS H.gameid)._options &&& S.OPTION_TADS3 = 0 → eng.cls = .TADS2) := by
  have ha : ¬ (H.filename = "" ∧ findFileByGameId S H H.gameid = "") := by
    rintro ⟨h1, h2⟩
    exact hres (by simp [resolvedFilename, h1, h2])
  rw [createInstance_spec, if_neg ha]
  cases ho : H.openFile H.path (resolvedFilename S H) with
  | none => exact absurd ho hopen
  | some f =>
    have hf : firstOwner S (populatedGameDesc S H f)._gameId = some .TADS :=
      firstOwner_tads S H.gameid hT hfirst
    simp only [createEngine_spec, hf]
    refine ⟨by simp, _, rfl, rfl, ?_, ?_⟩
    · intro hb
      simp only [engineFor, engineClassOf, populatedGameDesc]
      rw [if_pos hb]
    · intro hb
      simp only [engineFor, engineClassOf, populatedGameDesc]
      rw [if_neg (not_not.2 hb)]

/-- Witness for the amended C2: only TADS knows `x`, with the TADS3 bit. -/
theorem tads_subdispatch_witness :
    (createInstance onlyTads3 (exampleHost "x" "x.gam" ["x.gam"]) none).error = .kNoError ∧
    ∃ eng, (createInstance onlyTads3 (exampleHost "x" "x.gam" ["x.gam"]) none).engine
        = some eng ∧
      (createInstance onlyTads3 (exampleHost "x" "x.gam" ["x.gam"]) none).constructed = [eng] ∧
      ((onlyTads3.findGame .TADS "x")._options &&& onlyTads3.OPTION_TADS3 ≠ 0 →
        eng.cls = .TADS3) ∧
      ((onlyTads3.findGame .TADS "x")._options &&& onlyTads3.OPTION_TADS3 = 0 →
        eng.cls = .TADS2) :=
  tads_subdispatch onlyTads3 (exampleHost "x" "x.gam" ["x.gam"]) none (by decide)
    (by intro e he; cases e <;> first | exact absurd rfl he | decide) (by decide) (by decide)

/-! ## File resolution -/

/-- C4, evaluated where AGT and Alan2 both know `x`: `findGame` returns the Alan2
descriptor, while the first sub-engine of the fixed order that knows `x` is AGT and
`createInstance` constructs the AGT engine. -/
theorem findGame_order_differs :
    findGame clashAgtAlan2 "x" = ⟨some "x", some "An Alan2 game"⟩ ∧
    (clashAgtAlan2.findGame .AGT "x").toPlain = ⟨some "x", some "An AGT game"⟩ ∧
    dispatchOrder.find? (fun e => (clashAgtAlan2.findGame e "x")._description.isSome)
      = some .AGT ∧
    (createInstance clashAgtAlan2 (exampleHost "x" "x.dat" ["x.dat"]) none).engine.map
      Engine.cls = some .AGT := by
  decide

/-- C10, evaluated where only TADS knows `x` with options 1: the game description
handed to the TADS3 constructor has the default options 0, not the descriptor's. -/
theorem tads_options_not_handed :
    (onlyTads3.findGame .TADS "x")._options = 1 ∧
    (createInstance onlyTads3 (exampleHost "x" "x.gam" ["x.gam"]) none).engine.map
      (fun e => (e.cls, e.gameDesc._options)) = some (.TADS3, 0) := by
  decide

/-! ## Detection -/

theorem sublist_skip {α : Type} {a b c : List α} (h : b.Sublist c) : b.Sublist (a ++ c) :=
  List.Sublist.trans h (List.sublist_append_right a c)

theorem detectGames_eq (S : SubEngines) (fslist : FSList) :
    detectGames S fslist =
      S.detectGames .Adrift fslist ++ S.detectGames .AdvSys fslist ++
      S.detectGames .AGT fslist ++ S.detectGames .Alan2 fslist ++
      S.detectGames .Alan3 fslist ++ S.detectGames .Archetype fslist ++
      S.detectGames .Frotz fslist ++ S.detectGames .Glulxe fslist ++
      S.detectGames .Hugo fslist ++ S.detectGames .JACL fslist ++
      S.detectGames .Level9 fslist ++ S.detectGames .Magnetic fslist ++
      S.detectGames .Quest fslist ++ S.detectGames .Scott fslist ++
      S.detectGames .TADS fslist := by
  simp [detectGames, detectGamesRun]

/-- C8. `detectGames` returns the concatenation, in the fixed order, of the matches of
the fifteen sub-engines: every match is kept in place, the list is empty when no
sub-engine matches, and the tables the clash check reads have no influence on it.  The
result is a function of the sub-engines and the file list alone. -/
theorem detectGames_concatenation (S : SubEngines) (fslist : FSList) :
    detectGames S fslist =
      S.detectGames .Adrift fslist ++ S.detectGames .AdvSys fslist ++
      S.detectGames .AGT fslist ++ S.detectGames .Alan2 fslist ++
      S.detectGames .Alan3 fslist ++ S.detectGames .Archetype fslist ++
      S.detectGames .Frotz fslist ++ S.detectGames .Glulxe fslist ++
      S.detectGames .Hugo fslist ++ S.detectGames .JACL fslist ++
      S.detectGames .Level9 fslist ++ S.detectGames .Magnetic fslist ++
      S.detectGames .Quest fslist ++ S.detectGames .Scott fslist ++
      S.detectGames .TADS fslist ∧
    (∀ e, (S.detectGames e fslist).Sublist (detectGames S fslist)) ∧
    ((∀ e, S.detectGames e fslist = []) → detectGames S fslist = []) ∧
    (∀ ids : SubEngine → List String,
      detectGames { S with gameIds := ids } fslist = detectGames S fslist) := by
  refine ⟨detectGames_eq S fslist, ?_, ?_, ?_⟩
  · intro e
    rw [detectGames_eq]
    cases e <;> simp only [List.append_assoc] <;>
      repeat (first
        | exact List.sublist_append_left _ _
        | exact List.Sublist.refl _
        | apply sublist_skip)
  · intro h
    rw [detectGames_eq]
    simp [h]
  · intro ids
    rw [detectGames_eq, detectGames_eq]

/-! ## Clash detection -/

theorem registerAll_append (st : ClashState) (A B : List (String × String)) :
    registerAll st (A ++ B) = registerAll (registerAll st A) B := by
  simp [registerAll, List.foldl_append]

theorem registerAll_cons (st : ClashState) (p : String × String) (C : List (String × String)) :
    registerAll st (p :: C) = registerAll (registerGameId p.2 st p.1) C := rfl

theorem subDetectClashes_eq (S : SubEngines) (e : SubEngine) (st : ClashState) :
    subDetectClashes S e st = registerAll st ((S.gameIds e).map (fun g => (g, e.name))) := by
  simp [subDetectClashes, registerAll, List.foldl_map]

theorem foldl_subDetectClashes (S : SubEngines) (l : List SubEngine) :
    ∀ st, l.foldl (fun st e => subDetectClashes S e st) st = registerAll st (claimPairs S l) := by
  induction l with
  | nil => intro st; rfl
  | cons e es ih =>
    intro st
    rw [List.foldl_cons, ih, subDetectClashes_eq, claimPairs, registerAll_append]

theorem detectClashes_fold (S : SubEngines) :
    detectClashes S =
      dispatchOrder.foldl (fun st e => subDetectClashes S e st) { map := [], clashes := [] } :=
  rfl

theorem detectClashes_eq (S : SubEngines) :
    detectClashes S = registerAll { map := [], clashes := [] } (claimPairs S dispatchOrder) := by
  rw [detectClashes_fold, foldl_subDetectClashes]

theorem claimPairs_append (S : SubEngines) (l1 l2 : List SubEngine) :
    claimPairs S (l1 ++ l2) = claimPairs S l1 ++ claimPairs S l2 := by
  induction l1 with
  | nil => rfl
  | cons e es ih => simp [claimPairs, ih]

theorem mem_claimPairs (S : SubEngines) (l : List SubEngine) (p : String × String) :
    p ∈ claimPairs S l ↔ ∃ e ∈ l, p.1 ∈ S.gameIds e ∧ p.2 = e.name := by
  induction l with
  | nil => simp [claimPairs]
  | cons e es ih =>
    simp only [claimPairs, List.mem_append, List.mem_map, ih, List.mem_cons, exists_eq_or_imp]
    constructor
    · rintro (⟨g, hg, rfl⟩ | h)
      · exact Or.inl ⟨hg, rfl⟩
      · exact Or.inr h
    · rintro (⟨hg, hn⟩ | h)
      · exact Or.inl ⟨p.1, hg, by rw [← hn]⟩
      · exact Or.inr h

theorem lookup_mem (m : StringMap) (g o : String) (h : m.lookup g = some o) : (g, o) ∈ m := by
  induction m with
  | nil => simp at h
  | cons p ps ih =>
    obtain ⟨k, v⟩ := p
    rw [List.lookup_cons] at h
    by_cases hk : (g == k) = true
    · simp only [hk] at h
      have hk2 : g = k := by simpa using hk
      simp only [Option.some.injEq] at h
      subst hk2
      subst h
      exact List.mem_cons_self _ _
    · have hk2 : (g == k) = false := by simpa using hk
      simp only [hk2] at h
      exact List.mem_cons_of_mem _ (ih h)

theorem lookup_snoc (m : StringMap) (g k v : String) :
    (m ++ [(k, v)]).lookup g =
      match m.lookup g with
      | some o => some o
      | none => if g = k then some v else none := by
  induction m with
  | nil =>
    by_cases hk : g = k
    · simp [List.lookup, hk]
    · have : (g == k) = false := by simpa using hk
      simp [List.lookup, hk, this]
  | cons p ps ih =>
    obtain ⟨k2, v2⟩ := p
    rw [List.cons_append, List.lookup_cons, List.lookup_cons]
    by_cases hk : (g == k2) = true
    · simp [hk]
    · have hk2 : (g == k2) = false := by simpa using hk
      simp only [hk2]
      exact ih

theorem registerGameId_clashes_sub (n : String) (st : ClashState) (g : String) :
    ∀ c ∈ st.clashes, c ∈ (registerGameId n st g).clashes := by
  intro c hc
  unfold registerGameId
  split
  · split
    · exact List.mem_append_left _ hc
    · exact hc
  · exact hc

theorem registerAll_clashes_sub (C : List (String × String)) :
    ∀ (st : ClashState), ∀ c ∈ st.clashes, c ∈ (registerAll st C).clashes := by
  induction C with
  | nil => intro st c hc; exact hc
  | cons p C ih =>
    intro st c hc
    rw [registerAll_cons]
    exact ih _ c (registerGameId_clashes_sub p.2 st p.1 c hc)

theorem registerGameId_lookup (n : String) (st : ClashState) (g' g : String) :
    (registerGameId n st g').map.lookup g =
      match st.map.lookup g with
      | some o => some o
      | none => if g' = g then some n else none := by
  unfold registerGameId
  cases hl : st.map.lookup g' with
  | some prev =>
    have hne : st.map.lookup g = none → ¬ g' = g := by
      intro h1 h2
      rw [h2, h1] at hl
      exact Option.noConfusion hl
    by_cases hp : prev = n
    · simp only [hp, ne_eq, not_true_eq_false, if_false]
      cases hg : st.map.lookup g with
      | some o => rfl
      | none => simp [hne hg]
    · simp only [ne_eq, hp, not_false_eq_true, if_true]
      cases hg : st.map.lookup g with
      | some o => rfl
      | none => simp [hne hg]
  | none =>
    simp only [lookup_snoc]
    cases hg : st.map.lookup g with
    | some o => rfl
    | none =>
      by_cases h : g' = g
      · simp [h]
      · have h2 : ¬ g = g' := fun e => h e.symm
        simp [h, h2]

theorem registerAll_lookup (C : List (String × String)) :
    ∀ (st : ClashState) (g : String), (registerAll st C).map.lookup g =
      match st.map.lookup g with
      | some o => some o
      | none => (C.find? (fun p => decide (p.1 = g))).map Prod.snd := by
  induction C with
  | nil => intro st g; cases h : st.map.lookup g <;> simp [registerAll, h]
  | cons p C ih =>
    intro st g
    rw [registerAll_cons, ih, registerGameId_lookup, List.find?_cons]
    cases hg : st.map.lookup g with
    | some o => rfl
    | none =>
      by_cases h : p.1 = g
      · simp [h]
      · simp [h]

theorem registerGameId_map_mem (n : String) (st : ClashState) (g : String) :
    ∀ p ∈ (registerGameId n st g).map, p ∈ st.map ∨ p = (g, n) := by
  intro p hp
  unfold registerGameId at hp
  split at hp
  · split at hp
    · exact Or.inl hp
    · exact Or.inl hp
  · rcases List.mem_append.1 hp with h | h
    · exact Or.inl h
    · exact Or.inr (List.mem_singleton.1 h)

theorem registerGameId_clashes_mem (n : String) (st : ClashState) (g : String) :
    ∀ c ∈ (registerGameId n st g).clashes,
      c ∈ st.clashes ∨ (c.gameId = g ∧ c.claimant = n ∧ c.owner ≠ n ∧ (g, c.owner) ∈ st.map) := by
  intro c hc
  unfold registerGameId at hc
  split at hc
  · rename_i prev hl
    split at hc
    · rename_i hne
      rcases List.mem_append.1 hc with h | h
      · exact Or.inl h
      · have hc2 := List.mem_singleton.1 h
        subst hc2
        exact Or.inr ⟨rfl, rfl, hne, lookup_mem _ _ _ hl⟩
    · exact Or.inl hc
  · exact Or.inl hc

theorem registerAll_map_mem (C : List (String × String)) :
    ∀ (st : ClashState), ∀ p ∈ (registerAll st C).map, p ∈ st.map ∨ p ∈ C := by
  induction C with
  | nil => intro st p hp; exact Or.inl hp
  | cons q C ih =>
    intro st p hp
    rw [registerAll_cons] at hp
    rcases ih _ p hp with h | h
    · rcases registerGameId_map_mem q.2 st q.1 p h with h2 | h2
      · exact Or.inl h2
      · exact Or.inr (h2 ▸ List.mem_cons_self _ _)
    · exact Or.inr (List.mem_cons_of_mem _ h)

theorem registerAll_clashes_mem (C : List (String × String)) :
    ∀ (st : ClashState), ∀ c ∈ (registerAll st C).clashes,
      c ∈ st.clashes ∨
        ((c.gameId, c.claimant) ∈ C ∧ c.owner ≠ c.claimant ∧
          ((c.gameId, c.owner) ∈ st.map ∨ (c.gameId, c.owner) ∈ C)) := by
  induction C with
  | nil => intro st c hc; exact Or.inl hc
  | cons q C ih =>
    intro st c hc
    rw [registerAll_cons] at hc
    rcases ih _ c hc with h | ⟨h1, h2, h3⟩
    · rcases registerGameId_clashes_mem q.2 st q.1 c h with h4 | ⟨hg, hn, hne, hm⟩
      · exact Or.inl h4
      · refine Or.inr ⟨?_, ?_, Or.inl ?_⟩
        · rw [hg, hn]; exact List.mem_cons_self _ _
        · rw [hn]; exact hne
        · rw [hg]; exact hm
    · refine Or.inr ⟨List.mem_cons_of_mem _ h1, h2, ?_⟩
      rcases h3 with h3 | h3
      · rcases registerGameId_map_mem q.2 st q.1 _ h3 with h5 | h5
        · exact Or.inl h5
        · exact Or.inr (h5 ▸ List.mem_cons_self _ _)
      · exact Or.inr (List.mem_cons_of_mem _ h3)

theorem registerAll_records (P R : List (String × String)) (g o n : String)
    (hfind : (P.find? (fun p => decide (p.1 = g))).map Prod.snd = some o) (hne : o ≠ n) :
    ({ gameId := g, owner := o, claimant := n } : Clash) ∈
      (registerAll { map := [], clashes := [] } (P ++ (g, n) :: R)).clashes := by
  rw [registerAll_append, registerAll_cons]
  apply registerAll_clashes_sub
  have hl : (registerAll { map := [], clashes := [] } P).map.lookup g = some o := by
    rw [registerAll_lookup]
    simpa using hfind
  simp [registerGameId, hl, hne]

theorem SubEngine.name_injective (a b : SubEngine) (h : a.name = b.name) : a = b := by
  cases a <;> cases b <;> first | rfl | (exfalso; revert h; decide)

theorem dispatchOrder_nodup : dispatchOrder.Nodup := by decide

theorem detectClashes_later_records (S : SubEngines) (g : String)
    (before : List SubEngine) (e : SubEngine) (after : List SubEngine)
    (hsplit : dispatchOrder = before ++ e :: after) (hg : g ∈ S.gameIds e)
    (hprev : ∃ e1 ∈ before, g ∈ S.gameIds e1) :
    ∃ e0 ∈ before, g ∈ S.gameIds e0 ∧
      ({ gameId := g, owner := e0.name, claimant := e.name } : Clash) ∈
        (detectClashes S).clashes := by
  obtain ⟨e1, he1, hg1⟩ := hprev
  obtain ⟨A, B, hAB⟩ := List.append_of_mem hg
  have hnotin : e ∉ before := by
    have hnd := dispatchOrder_nodup
    rw [hsplit] at hnd
    intro hmem
    have := (List.nodup_append.1 hnd).2.2
    exact this hmem (List.mem_cons_self _ _)
  have hpairs : claimPairs S dispatchOrder =
      (claimPairs S before ++ A.map (fun x => (x, e.name))) ++
        (g, e.name) :: (B.map (fun x => (x, e.name)) ++ claimPairs S after) := by
    rw [hsplit, claimPairs_append, claimPairs, hAB]
    simp
  have hin : (g, e1.name) ∈ claimPairs S before :=
    (mem_claimPairs S before _).2 ⟨e1, he1, hg1, rfl⟩
  cases hf : (claimPairs S before).find? (fun p => decide (p.1 = g)) with
  | none =>
    rw [List.find?_eq_none] at hf
    have := hf _ hin
    simp at this
  | some p =>
    have hpmem : p ∈ claimPairs S before := List.mem_of_find?_eq_some hf
    have hpg : p.1 = g := by simpa using List.find?_some hf
    obtain ⟨e0, he0, hg0, hn0⟩ := (mem_claimPairs S before p).1 hpmem
    have hne : e0.name ≠ e.name := by
      intro hn
      have := SubEngine.name_injective e0 e hn
      exact hnotin (this ▸ he0)
    refine ⟨e0, he0, hpg ▸ hg0, ?_⟩
    rw [detectClashes_eq, hpairs]
    apply registerAll_records
    · rw [List.find?_append, hf]
      simp [hn0]
    · exact hne

theorem detectClashes_sound (S : SubEngines) (c : Clash) (hc : c ∈ (detectClashes S).clashes) :
    ∃ e1 e2, e1 ≠ e2 ∧ c.gameId ∈ S.gameIds e1 ∧ c.gameId ∈ S.gameIds e2 ∧
      c.owner = e1.name ∧ c.claimant = e2.name := by
  rw [detectClashes_eq] at hc
  rcases registerAll_clashes_mem _ _ c hc with h | ⟨h1, h2, h3⟩
  · simp at h
  · have h3b : (c.gameId, c.owner) ∈ claimPairs S dispatchOrder := by
      rcases h3 with h3 | h3
      · simp at h3
      · exact h3
    obtain ⟨e2, _, hg2, hn2⟩ := (mem_claimPairs S _ _).1 h1
    obtain ⟨e1, _, hg1, hn1⟩ := (mem_claimPairs S _ _).1 h3b
    refine ⟨e1, e2, ?_, hg1, hg2, hn1, hn2⟩
    intro he
    apply h2
    simp only at hn1 hn2
    rw [hn1, hn2, he]

theorem split_two {α : Type} (l : List α) (a b : α) (ha : a ∈ l) (hb : b ∈ l) (hab : a ≠ b) :
    (∃ before after, l = before ++ b :: after ∧ a ∈ before) ∨
    (∃ before after, l = before ++ a :: after ∧ b ∈ before) := by
  obtain ⟨s, t, hst⟩ := List.append_of_mem hb
  subst hst
  rcases List.mem_append.1 ha with h | h
  · exact Or.inl ⟨s, t, rfl, h⟩
  · rcases List.mem_cons.1 h with h2 | h2
    · exact absurd h2 hab
    · obtain ⟨s2, t2, hst2⟩ := List.append_of_mem h2
      subst hst2
      refine Or.inr ⟨s ++ b :: s2, t2, by simp, ?_⟩
      simp

/-- C9. `detectClashes` threads one map, empty at the start, through the sub-engines'
clash routines once each in the fixed order.  For every game id either at most one
sub-engine has it in its table or a clash for it is recorded; each sub-engine that finds
the id owned by an earlier one records the clash with that owner; a recorded clash names
two different sub-engines that both have the id; and `detectGames` goes on to return
its list whatever was recorded. -/
theorem detectClashes_unique_or_clash (S : SubEngines) (g : String) :
    detectClashes S =
      dispatchOrder.foldl (fun st e => subDetectClashes S e st) { map := [], clashes := [] } ∧
    ((∀ e1 e2, g ∈ S.gameIds e1 → g ∈ S.gameIds e2 → e1 = e2) ∨
      ∃ c ∈ (detectClashes S).clashes, c.gameId = g) ∧
    (∀ before e after, dispatchOrder = before ++ e :: after → g ∈ S.gameIds e →
      (∃ e1 ∈ before, g ∈ S.gameIds e1) →
      ∃ e0 ∈ before, g ∈ S.gameIds e0 ∧
        ({ gameId := g, owner := e0.name, claimant := e.name } : Clash) ∈
          (detectClashes S).clashes) ∧
    (∀ c ∈ (detectClashes S).clashes, c.gameId = g →
      ∃ e1 e2, e1 ≠ e2 ∧ g ∈ S.gameIds e1 ∧ g ∈ S.gameIds e2 ∧
        c.owner = e1.name ∧ c.claimant = e2.name) ∧
    (∀ fslist, (detectGamesRun S fslist).1 = (detectClashes S).clashes ∧
      (detectGamesRun S fslist).2 = detectGames S fslist ∧
      ∀ e, (S.detectGames e fslist).Sublist (detectGamesRun S fslist).2) := by
  refine ⟨detectClashes_fold S, ?_, ?_, ?_, ?_⟩
  · by_cases h : ∀ e1 e2, g ∈ S.gameIds e1 → g ∈ S.gameIds e2 → e1 = e2
    · exact Or.inl h
    · right
      push_neg at h
      obtain ⟨e1, e2, h1, h2, hne⟩ := h
      rcases split_two dispatchOrder e1 e2 (mem_dispatchOrder e1) (mem_dispatchOrder e2) hne with
        ⟨before, after, hs, hb⟩ | ⟨before, after, hs, hb⟩
      · obtain ⟨e0, _, _, hc⟩ :=
          detectClashes_later_records S g before e2 after hs h2 ⟨e1, hb, h1⟩
        exact ⟨_, hc, rfl⟩
      · obtain ⟨e0, _, _, hc⟩ :=
          detectClashes_later_records S g before e1 after hs h1 ⟨e2, hb, h2⟩
        exact ⟨_, hc, rfl⟩
  · intro before e after hs hg hprev
    exact detectClashes_later_records S g before e after hs hg hprev
  · intro c hc hcg
    have := detectClashes_sound S c hc
    rw [hcg] at this
    exact this
  · intro fslist
    refine ⟨rfl, rfl, ?_⟩
    intro e
    have h : (detectGamesRun S fslist).2 = detectGames S fslist := rfl
    rw [h, detectGames_eq]
    cases e <;> simp only [List.append_assoc] <;>
      repeat (first
        | exact List.sublist_append_left _ _
        | exact List.Sublist.refl _
        | apply sublist_skip)

/-- Witness for C9: with `x` in the tables of Adrift and TADS, TADS records the clash
against Adrift. -/
theorem detectClashes_unique_or_clash_witness :
    ∃ e0 ∈ [SubEngine.Adrift, .AdvSys, .AGT, .Alan2, .Alan3, .Archetype, .Frotz, .Glulxe,
        .Hugo, .JACL, .Level9, .Magnetic, .Quest, .Scott],
      "x" ∈ clashAdriftTads.gameIds e0 ∧
      ({ gameId := "x", owner := e0.name, claimant := SubEngine.TADS.name } : Clash) ∈
        (detectClashes clashAdriftTads).clashes :=
  (detectClashes_unique_or_clash clashAdriftTads "x").2.2.1
    [.Adrift, .AdvSys, .AGT, .Alan2, .Alan3, .Archetype, .Frotz, .Glulxe,
        .Hugo, .JACL, .Level9, .Magnetic, .Quest, .Scott] .TADS [] rfl (by decide)
    ⟨.Adrift, by decide, by decide⟩

/-! ## Witnesses and further properties -/

/-- Witness for C5: of the five files of the example directory the pattern `t.0##` lists
`t.003` and `t.005`, and the result is the single entry of slot 3. -/
theorem listSaves_sorted_exact_witness :
    listSaves exampleSaveEnv "t" = [SaveStateDescriptor.ofSlot 3 "third"] :=
  (listSaves_sorted_exact exampleSaveEnv "t").2.2.2.1 [1] "third" (by decide) (by decide)
    (by decide) (by decide) (Or.inr ⟨[0], by decide, by decide⟩)

/-- Witness for C6: slot 7 of a target with a dot in its name, and slot 100 with
`MAX_SAVES` at 99. -/
theorem slot_name_roundtrip_witness :
    (parseSlot (formatSaveName "my.game" 7) = 7 ∧
      slotInRange exampleSaveEnv (parseSlot (formatSaveName "my.game" 7)) = true) ∧
    (slotInRange exampleSaveEnv (parseSlot (formatSaveName "my.game" 100)) = false ∧
      (∀ saveList,
        listSavesStep exampleSaveEnv saveList (formatSaveName "my.game" 100) = saveList) ∧
      (∀ d ∈ listSaves exampleSaveEnv "my.game", d.slot ≠ 100)) :=
  ⟨(slot_name_roundtrip exampleSaveEnv "my.game" 7).1 (by decide),
   (slot_name_roundtrip exampleSaveEnv "my.game" 100).2 (by decide)⟩

/-- Witness for C7: slot 5 of the example directory opens but the reader fails, slot
3 is read. -/
theorem querySaveMetaInfos_contract_witness :
    (querySaveMetaInfos exampleSaveEnv "t" 5 = SaveStateDescriptor.default ∧
      ((0 : Int) ≤ 5 → (querySaveMetaInfos exampleSaveEnv "t" 5).slot ≠ 5)) ∧
    (querySaveMetaInfos exampleSaveEnv "t" 3 =
        (exampleSaveEnv.getSavegameMetaInfo [1] SaveStateDescriptor.default).2.setSaveSlot 3 ∧
      (querySaveMetaInfos exampleSaveEnv "t" 3).slot = 3) :=
  ⟨(querySaveMetaInfos_contract exampleSaveEnv "t" 5).1 (Or.inr ⟨[0], by decide, by decide⟩),
   (querySaveMetaInfos_contract exampleSaveEnv "t" 3).2 [1] (by decide) (by decide)⟩

/-- Witness for C8: sub-engines without any detection return the empty list. -/
theorem detectGames_concatenation_witness :
    detectGames onlyTads3 [⟨"x.gam"⟩] = [] :=
  (detectGames_concatenation onlyTads3 [⟨"x.gam"⟩]).2.2.1
    (by intro e; cases e <;> decide)

theorem findGame_eq_loop (S : SubEngines) (gameId : String) :
    findGame S gameId = findGameLoop S gameId findGameOrder := rfl

theorem findGameLoop_eq (S : SubEngines) (gameId : String) (l : List SubEngine) :
    findGameLoop S gameId l =
      match l.find? (fun e => (S.findGame e gameId)._description.isSome) with
      | some e => (S.findGame e gameId).toPlain
      | none => PlainGameDescriptor.empty := by
  induction l with
  | nil => rfl
  | cons e rest ih =>
    rw [findGameLoop, List.find?_cons]
    by_cases h : (S.findGame e gameId)._description.isSome = true
    · simp [h]
    · have h2 : (S.findGame e gameId)._description.isSome = false := by simpa using h
      simp only [h2, Bool.false_eq_true, if_false]
      exact ih

/-- X1. `findGame` returns the plain descriptor of the first sub-engine that knows the
id in the order Adrift, AdvSys, Alan2, AGT, Alan3, Archetype, Frotz, Glulxe, Hugo, JACL,
Level9, Magnetic, Quest, Scott, TADS, and the empty descriptor when none knows it. -/
theorem findGame_lookup_order (S : SubEngines) (gameId : String) :
    findGame S gameId =
      match [SubEngine.Adrift, .AdvSys, .Alan2, .AGT, .Alan3, .Archetype, .Frotz, .Glulxe,
          .Hugo, .JACL, .Level9, .Magnetic, .Quest, .Scott, .TADS].find?
          (fun e => (S.findGame e gameId)._description.isSome) with
      | some e => (S.findGame e gameId).toPlain
      | none => PlainGameDescriptor.empty := by
  rw [findGame_eq_loop, findGameLoop_eq]
  rfl

/-- X2. When `createInstance` reaches the dispatch chain with an opened file, the game
description handed to the constructed engine is the populated one, with the options of
the owning sub-engine's descriptor if the owner is one of the fourteen sub-engines
before TADS, and with the default options if the owner is TADS. -/
theorem createInstance_options_handed (S : SubEngines) (H : Host) (engine0 : Option Engine)
    (f : List Nat) (e : SubEngine)
    (hres : resolvedFilename S H ≠ "")
    (hopen : H.openFile H.path (resolvedFilename S H) = some f)
    (hown : firstOwner S H.gameid = some e) :
    ∃ eng, (createInstance S H engine0).engine = some eng ∧
      eng.gameDesc._gameId = H.gameid ∧
      eng.gameDesc._filename = resolvedFilename S H ∧
      eng.gameDesc._md5 = H.computeStreamMD5AsString f 5000 ∧
      eng.gameDesc._language = (populatedGameDesc S H f)._language ∧
      eng.gameDesc._platform = (populatedGameDesc S H f)._platform ∧
      (e ≠ .TADS → eng.gameDesc._options = (S.findGame e H.gameid)._options) ∧
      (e = .TADS → eng.gameDesc._options = S.defaultOptions) := by
  have ha : ¬ (H.filename = "" ∧ findFileByGameId S H H.gameid = "") := by
    rintro ⟨h1, h2⟩
    exact hres (by simp [resolvedFilename, h1, h2])
  have hown2 : firstOwner S (populatedGameDesc S H f)._gameId = some e := hown
  rw [createInstance_spec, if_neg ha]
  simp only [hopen, createEngine_spec, hown2]
  refine ⟨_, rfl, rfl, rfl, rfl, rfl, rfl, ?_, ?_⟩
  · intro hne
    cases e <;> first | exact absurd rfl hne | rfl
  · intro he
    subst he
    rfl

/-- Witness for X2: Adrift owns `x` with options 4. -/
theorem createInstance_options_handed_witness :
    ∃ eng, (createInstance (exampleSubEngines [(.Adrift, "x", "An Adrift game", 4)] [])
        (exampleHost "x" "x.taf" ["x.taf"]) none).engine = some eng ∧
      eng.gameDesc._gameId = "x" ∧
      eng.gameDesc._filename = "x.taf" ∧
      eng.gameDesc._md5 = "d41d8cd9" ∧
      eng.gameDesc._language = none ∧
      eng.gameDesc._platform = none ∧
      (SubEngine.Adrift ≠ .TADS → eng.gameDesc._options = 4) ∧
      (SubEngine.Adrift = .TADS → eng.gameDesc._options = 0) :=
  createInstance_options_handed (exampleSubEngines [(.Adrift, "x", "An Adrift game", 4)] [])
    (exampleHost "x" "x.taf" ["x.taf"]) none [71, 108, 107] .Adrift
    (by decide) (by decide) (by decide)

end GlkDetection
